import Mathlib

/-!
Shallow embedding of the DECI-website mini-game logic:
the secret-code key-sequence detector (SecretCodeDetector in the
codeDetection utility) and the Flappy-style avoidance game loop
(FlappyGame.tsx).  Machine numbers that are plain JS floats are
modelled as rationals; JS timestamps and ids as naturals.
-/

/-! ## Sequence Matcher (SecretCodeDetector) -/

/-- One keydown step of SecretCodeDetector.handleKeyDown: push the key,
shift the front element off when the window exceeds the target length,
then compare the window to the secret code elementwise (sequenceMatches);
on a match the window is cleared and the callback fires (second
component true). -/
def handleKeyDown (secretCode seq : List String) (k : String) : List String × Bool :=
  let s1 := seq ++ [k]
  let s2 := if secretCode.length < s1.length then s1.tail else s1
  if s2 = secretCode then ([], true) else (s2, false)

/-- Feed a stream of keys to the detector from window state seq;
returns the final window and the per-event fire flags. -/
def runDetector (secretCode : List String) (seq : List String) :
    List String → List String × List Bool
  | [] => (seq, [])
  | k :: ks =>
    let r := handleKeyDown secretCode seq k
    let rest := runDetector secretCode r.1 ks
    (rest.1, r.2 :: rest.2)

/-- The last n elements of a list (the sliding window of the spec). -/
def lastWindow (n : Nat) (l : List String) : List String :=
  l.drop (l.length - n)

/-- Modelled from the spec sentence for the Sequence Matcher: keep every
key observed since start or since the previous callback invocation; the
callback fires exactly when the last n of them equal the target pattern
in order, and firing clears the observation list. -/
def specKey (secretCode obs : List String) (k : String) : List String × Bool :=
  let obs2 := obs ++ [k]
  if lastWindow secretCode.length obs2 = secretCode then ([], true) else (obs2, false)

/-- Run the spec-side matcher over a stream of keys. -/
def runSpecMatcher (secretCode : List String) (obs : List String) :
    List String → List String × List Bool
  | [] => (obs, [])
  | k :: ks =>
    let r := specKey secretCode obs k
    let rest := runSpecMatcher secretCode r.1 ks
    (rest.1, r.2 :: rest.2)

/-! ## Avoidance game data model (FlappyGame.tsx) -/

/-- An obstacle record: id, horizontal pixel position, top-barrier
height percentage and the gap size percentage. -/
structure Obstacle where
  id : Nat
  x : ℚ
  height : ℚ
  gapSize : ℚ
deriving DecidableEq, Repr

instance : Inhabited Obstacle := ⟨⟨0, 0, 0, 0⟩⟩

/-- The game state held in the component signals. -/
structure GameState where
  playerY : ℚ
  obstacles : List Obstacle
  score : Nat
  active : Bool
deriving DecidableEq, Repr

/-- createObstacle: gap size is the constant 30; the top height is
20 + Math.random() * 50 where r stands for the Math.random() draw; the
id argument falls back to Date.now() when it is falsy (0). -/
def createObstacle (xPosition : ℚ) (id : Nat) (now : Nat) (r : ℚ) : Obstacle :=
  { id := if id = 0 then now else id
  , x := xPosition
  , height := 20 + r * 50
  , gapSize := 30 }

/-- initGame: reset score, seed three obstacles at width+50, width+200,
width+350 with ids 1,2,3, center the player at 50 and activate the loop.
r1 r2 r3 stand for the three Math.random() draws. -/
def initGame (width : ℚ) (r1 r2 r3 : ℚ) : GameState :=
  { playerY := 50
  , obstacles :=
      [ createObstacle (width + 50) 1 0 r1
      , createObstacle (width + 200) 2 0 r2
      , createObstacle (width + 350) 3 0 r3 ]
  , score := 0
  , active := true }

/-- Math.max over the x positions of a nonempty obstacle list
(rightmostX in updateGame). -/
def maxX : List Obstacle → ℚ
  | [] => 0
  | o :: rest => rest.foldl (fun m o2 => max m o2.x) o.x

/-- The in-place recycling loop of updateGame: walk the shifted array
front to back; every entry with x < -50 bumps the score by one and is
replaced by a fresh obstacle at (current rightmost x) + 300, where the
rightmost is taken over the whole array as it stands at that iteration.
nows and rands are the streams of Date.now() and Math.random() results,
indexed by the number of recycles performed so far (counter k). -/
def recycleLoop (done todo : List Obstacle) (score k : Nat)
    (nows : Nat → Nat) (rands : Nat → ℚ) : List Obstacle × Nat × Nat :=
  match todo with
  | [] => (done, score, k)
  | o :: rest =>
    if o.x < -50 then
      let m := maxX (done ++ o :: rest)
      let o2 := createObstacle (m + 300) (nows k) (nows k) (rands k)
      recycleLoop (done ++ [o2]) rest (score + 1) (k + 1) nows rands
    else
      recycleLoop (done ++ [o]) rest score k nows rands

/-- The setObstacles updater of updateGame: shift every obstacle left by
2 pixels, then run the recycling loop; also yields the updated score. -/
def updateObstacles (obs : List Obstacle) (score : Nat)
    (nows : Nat → Nat) (rands : Nat → ℚ) : List Obstacle × Nat :=
  let updated := obs.map (fun o => { o with x := o.x - 2 })
  let r := recycleLoop [] updated score 0 nows rands
  (r.1, r.2.1)

/-! ## Collision geometry -/

/-- A DOMRect as read by getBoundingClientRect. -/
structure Rect where
  left : ℚ
  right : ℚ
  top : ℚ
  bottom : ℚ
deriving DecidableEq, Repr

/-- The DOM geometry visible to detectCollisions: the player rect (none
when playerRef is unset) and, per obstacle id, the rects of the top and
bottom barrier elements (none when getElementById finds nothing). -/
structure Geometry where
  playerRect : Option Rect
  topRect : Nat → Option Rect
  bottomRect : Nat → Option Rect

/-- The collision test of detectCollisions for one obstacle: the
horizontal alignment test against the top or the bottom rect, and then
the gap test p.top < topRect.bottom or p.bottom > bottomRect.top. -/
def checkCollision (p t b : Rect) : Bool :=
  if (decide (t.left < p.right) && decide (p.left < t.right))
      || (decide (b.left < p.right) && decide (p.left < b.right)) then
    decide (p.top < t.bottom) || decide (b.top < p.bottom)
  else
    false

/-- The primitive synchronous operations the component can perform on
its signals, plus the scheduling of a gsap animation (whose callbacks
run later, not in the current turn). -/
inductive SyncOp where
  | setPlayerY (y : ℚ)
  | setObstacles (l : List Obstacle)
  | setScore (n : Nat)
  | setActive (b : Bool)
  | scheduleAnim
deriving DecidableEq, Repr

/-- Synchronous effect of one operation on the game state; scheduling an
animation changes no signal now. -/
def applySyncOp (s : GameState) : SyncOp → GameState
  | .setPlayerY y => { s with playerY := y }
  | .setObstacles l => { s with obstacles := l }
  | .setScore n => { s with score := n }
  | .setActive b => { s with active := b }
  | .scheduleAnim => s

/-- handleCollision only starts the crash animation synchronously; the
state changes live in its onComplete callback. -/
def handleCollisionOps : List SyncOp := [SyncOp.scheduleAnim]

/-- The forEach over the obstacles in detectCollisions: for each
obstacle whose two barrier elements are found and whose rects collide
with the player, invoke handleCollision (the forEach keeps going after
a hit, so several obstacles can each schedule a crash animation). -/
def detectLoop (p : Rect) (g : Geometry) : List Obstacle → List SyncOp
  | [] => []
  | o :: rest =>
    match g.topRect o.id, g.bottomRect o.id with
    | some t, some b =>
      if checkCollision p t b then handleCollisionOps ++ detectLoop p g rest
      else detectLoop p g rest
    | _, _ => detectLoop p g rest

/-- The synchronous operation trace of detectCollisions: bail out when
the player rect is missing or the game is inactive; otherwise run the
forEach over the live obstacles. -/
def detectCollisionsOps (s : GameState) (g : Geometry) : List SyncOp :=
  match g.playerRect, s.active with
  | none, _ => []
  | some _, false => []
  | some p, true => detectLoop p g s.obstacles

/-- The onComplete callback of the crash animation: deactivate the game
and schedule the restart timer (second component). -/
def crashAnimOnComplete (s : GameState) : GameState × Bool :=
  ({ s with active := false }, true)

/-- The restart timer body: the gameRef mounted check guards a full
initGame; otherwise nothing happens. -/
def restartTimerBody (mounted : Bool) (s : GameState) (w r1 r2 r3 : ℚ) : GameState :=
  if mounted then initGame w r1 r2 r3 else s

/-- closeGame: deactivate and start the exit animation whose onComplete
invokes the host onClose callback (second component true = the close
callback has been scheduled). -/
def closeGame (s : GameState) : GameState × Bool :=
  ({ s with active := false }, true)

/-- handleControls: ignore everything while inactive; ArrowUp or space
moves the player up by 5 (floor 0), ArrowDown moves down by 5 (cap 90),
Escape closes the game.  Second component: close callback scheduled. -/
def handleControls (s : GameState) (key : String) : GameState × Bool :=
  if s.active = false then (s, false)
  else if key = "ArrowUp" ∨ key = " " then
    ({ s with playerY := max 0 (s.playerY - 5) }, false)
  else if key = "ArrowDown" then
    ({ s with playerY := min 90 (s.playerY + 5) }, false)
  else if key = "Escape" then closeGame s
  else (s, false)

/-- One animation-frame tick (updateGame): bail out while inactive;
apply gravity min 90 (y + 0.5); move and recycle the obstacles; run
detectCollisions (whose synchronous trace is applied to the state); and
schedule the next frame exactly when gameActive() still holds.  Returns
the post-tick state, whether the next frame was scheduled, and how many
crash animations were scheduled by collision handling. -/
def updateGameRun (s : GameState) (g : Geometry)
    (nows : Nat → Nat) (rands : Nat → ℚ) : GameState × Bool × Nat :=
  if s.active = false then (s, false, 0)
  else
    let s1 := { s with playerY := min 90 (s.playerY + 1/2) }
    let r := updateObstacles s1.obstacles s1.score nows rands
    let s2 := { s1 with obstacles := r.1, score := r.2 }
    let ops := detectCollisionsOps s2 g
    let s3 := ops.foldl applySyncOp s2
    (s3, s3.active, ops.length)

/-- The events that can reach the game state over its life: a frame
tick (with its Date.now()/Math.random() streams and the DOM geometry),
a keydown, the completion of the crash animation, and the restart
timer firing (with the mounted flag and fresh init parameters). -/
inductive GEvent where
  | tick (nows : Nat → Nat) (rands : Nat → ℚ) (g : Geometry)
  | key (k : String)
  | crashDone
  | restart (mounted : Bool) (w r1 r2 r3 : ℚ)

/-- State transition of one event. -/
def stepEvent (s : GameState) : GEvent → GameState
  | .tick nows rands g => (updateGameRun s g nows rands).1
  | .key k => (handleControls s k).1
  | .crashDone => (crashAnimOnComplete s).1
  | .restart m w r1 r2 r3 => restartTimerBody m s w r1 r2 r3

/-- Run a list of events. -/
def runEvents (s : GameState) (evs : List GEvent) : GameState :=
  evs.foldl stepEvent s

/-- The bottom barrier height the render computes for an obstacle:
100 - height - gapSize (in percent). -/
def bottomObstacleHeight (o : Obstacle) : ℚ :=
  100 - o.height - o.gapSize

/-- A Math.random() draw lies in [0,1). -/
def goodRand (r : ℚ) : Prop := 0 ≤ r ∧ r < 1

/-- Range discipline of an event: every random draw it carries lies in
[0,1). -/
def evGood : GEvent → Prop
  | .tick _ rands _ => ∀ m, goodRand (rands m)
  | .restart _ _ r1 r2 r3 => goodRand r1 ∧ goodRand r2 ∧ goodRand r3
  | _ => True

/-- Boolean check that every live obstacle has its top height in
[20,70], gap size 30, and render bottom height 100 - height - 30. -/
def obstaclesOk (l : List Obstacle) : Bool :=
  l.all (fun o =>
    decide (20 ≤ o.height) && decide (o.height ≤ 70) && decide (o.gapSize = 30)
      && decide (bottomObstacleHeight o = 100 - o.height - 30))

/-! ## Teardown interleaving model

The scheduled continuations of the mounted game and the guards the code
puts on them: updateGame is guarded by gameActive(), the crash-restart
timer by the gameRef mounted check, and closeGame / the close animation
onComplete drive unmounting. ticksAfterTeardown counts tick bodies that
execute after close was requested. -/

structure TeardownState where
  mounted : Bool
  active : Bool
  closeRequested : Bool
  pendingCrashAnim : Bool
  pendingRestart : Bool
  pendingRaf : Bool
  pendingCloseAnim : Bool
  ticksAfterTeardown : Nat
deriving DecidableEq, Repr

inductive TdEvent where
  | crashAnimDone
  | clickClose
  | closeAnimDone
  | restartTimerFire
  | rafFire
deriving DecidableEq, Repr

/-- One host-scheduled callback firing.  crashAnimDone is the crash
animation onComplete (deactivate, arm the restart timer); clickClose is
closeGame (deactivate, request close, start the exit animation);
closeAnimDone is the exit animation onComplete (onClose, unmount);
restartTimerFire is the 1s restart timer (guarded only by the gameRef
mounted check, it reactivates the game and schedules a frame); rafFire
is the queued updateGame call (guarded by gameActive(); when it runs it
requests the next frame again). -/
def tdStep (s : TeardownState) : TdEvent → TeardownState
  | .crashAnimDone =>
    if s.pendingCrashAnim then
      { s with pendingCrashAnim := false, active := false, pendingRestart := true }
    else s
  | .clickClose =>
    if s.mounted then
      { s with active := false, closeRequested := true, pendingCloseAnim := true }
    else s
  | .closeAnimDone =>
    if s.pendingCloseAnim then
      { s with pendingCloseAnim := false, mounted := false }
    else s
  | .restartTimerFire =>
    if s.pendingRestart then
      if s.mounted then
        { s with pendingRestart := false, active := true, pendingRaf := true }
      else { s with pendingRestart := false }
    else s
  | .rafFire =>
    if s.pendingRaf then
      if s.active then
        { s with ticksAfterTeardown :=
            s.ticksAfterTeardown + (if s.closeRequested then 1 else 0) }
      else { s with pendingRaf := false }
    else s

/-- Run a sequence of host callbacks. -/
def tdRun (s : TeardownState) (evs : List TdEvent) : TeardownState :=
  evs.foldl tdStep s

/-- A mounted running game whose crash animation is playing and whose
next frame is queued. -/
def tdStart : TeardownState :=
  { mounted := true, active := true, closeRequested := false
  , pendingCrashAnim := true, pendingRestart := false
  , pendingRaf := true, pendingCloseAnim := false
  , ticksAfterTeardown := 0 }

/-! ## Concrete states used in counterexamples and witnesses -/

/-- Geometry with no player rect and no obstacle elements. -/
def g0 : Geometry := ⟨none, fun _ => none, fun _ => none⟩

/-- A running state in which the first two obstacles are about to cross
the recycle threshold in the same tick. -/
def s8 : GameState :=
  { playerY := 50
  , obstacles := [⟨1, -49, 30, 30⟩, ⟨2, -99/2, 40, 30⟩, ⟨3, 100, 50, 30⟩]
  , score := 0
  , active := true }

/-- A crashed (inactive) state. -/
def sCrash : GameState :=
  { playerY := 50, obstacles := [], score := 0, active := false }

/-- A running state with one obstacle. -/
def sRun : GameState :=
  { playerY := 50, obstacles := [⟨1, 20, 30, 30⟩], score := 0, active := true }

/-- Geometry in which the player overlaps the obstacle with id 1 and
sits inside its top barrier. -/
def gHit : Geometry :=
  { playerRect := some ⟨40, 80, 10, 50⟩
  , topRect := fun _ => some ⟨18, 66, 0, 100⟩
  , bottomRect := fun _ => some ⟨18, 66, 150, 250⟩ }

/-- A running state in which exactly the first obstacle is about to be
recycled. -/
def s7 : GameState :=
  { playerY := 50
  , obstacles := [⟨1, -49, 30, 30⟩, ⟨2, 60, 40, 30⟩, ⟨3, 200, 50, 30⟩]
  , score := 5
  , active := true }

/-- The obstacle invariant as a proposition: top height in [20,70] and
gap size 30. -/
def heightOkP (o : Obstacle) : Prop :=
  20 ≤ o.height ∧ o.height ≤ 70 ∧ o.gapSize = 30

/-! ## Helper lemmas -/

/-- Every operation detectCollisions emits synchronously is the start of
a crash animation. -/
lemma detectLoop_all_anim (p : Rect) (g : Geometry) :
    ∀ (l : List Obstacle), ∀ op ∈ detectLoop p g l, op = SyncOp.scheduleAnim := by
  intro l
  induction l with
  | nil => intro op h; simp [detectLoop] at h
  | cons o rest ih =>
    intro op h
    simp only [detectLoop] at h
    rcases ht : g.topRect o.id with _ | t <;> rcases hb : g.bottomRect o.id with _ | b <;>
      simp [ht, hb] at h <;> try exact ih op h
    rcases hc : checkCollision p t b with _ | _ <;> simp [hc] at h
    · exact ih op h
    · rcases h with h | h
      · simpa [handleCollisionOps] using h
      · exact ih op h

lemma detectCollisionsOps_all_anim (s : GameState) (g : Geometry) :
    ∀ op ∈ detectCollisionsOps s g, op = SyncOp.scheduleAnim := by
  intro op h
  unfold detectCollisionsOps at h
  rcases hp : g.playerRect with _ | p <;> rcases ha : s.active with _ | _ <;>
    simp [hp, ha] at h
  exact detectLoop_all_anim p g s.obstacles op h

/-- Folding a trace of pure scheduling operations changes no signal. -/
lemma foldl_applySyncOp_anim :
    ∀ (ops : List SyncOp) (s : GameState),
      (∀ op ∈ ops, op = SyncOp.scheduleAnim) → ops.foldl applySyncOp s = s := by
  intro ops
  induction ops with
  | nil => intro s _; rfl
  | cons op rest ih =>
    intro s h
    have hop := h op (by simp)
    subst hop
    have : applySyncOp s SyncOp.scheduleAnim = s := rfl
    simp only [List.foldl_cons, this]
    exact ih s (fun op hm => h op (by simp [hm]))

/-- The synchronous trace of detectCollisions leaves the state alone. -/
lemma detect_foldl_id (s : GameState) (g : Geometry) :
    (detectCollisionsOps s g).foldl applySyncOp s = s :=
  foldl_applySyncOp_anim _ s (detectCollisionsOps_all_anim s g)

/-- Pushing one key through the capped window of the detector computes
the last-n window of the uncapped observation list. -/
lemma window_step (n : Nat) (obs : List String) (k : String) :
    (if n < (lastWindow n obs ++ [k]).length then (lastWindow n obs ++ [k]).tail
      else lastWindow n obs ++ [k]) = lastWindow n (obs ++ [k]) := by
  by_cases hn : n ≤ obs.length
  · have hlen : (lastWindow n obs).length = n := by
      simp [lastWindow]; omega
    have hcond : n < (lastWindow n obs ++ [k]).length := by
      simp [hlen]
    rw [if_pos hcond]
    by_cases h0 : n = 0
    · subst h0
      have h1 : lastWindow 0 obs = [] := by
        simp [lastWindow]
      have h2 : lastWindow 0 (obs ++ [k]) = [] := by
        simp [lastWindow]
      simp [h1, h2]
    · have h1 : lastWindow n (obs ++ [k])
          = obs.drop (obs.length + 1 - n) ++ [k] := by
        unfold lastWindow
        rw [List.length_append]
        rw [List.drop_append_eq_append_drop]
        have : obs.length + 1 - n - obs.length = 0 := by omega
        simp [this]
      rw [h1]
      have h2 : (lastWindow n obs ++ [k]).tail = (lastWindow n obs).tail ++ [k] := by
        have hne : lastWindow n obs ≠ [] := by
          intro hc
          rw [hc] at hlen
          simp at hlen
          omega
        rcases List.exists_cons_of_ne_nil hne with ⟨a, l2, he⟩
        rw [he]
        rfl
      rw [h2]
      unfold lastWindow
      rw [List.tail_drop]
      have harith : obs.length - n + 1 = obs.length + 1 - n := by omega
      rw [harith]
  · have h1 : lastWindow n obs = obs := by
      unfold lastWindow
      have : obs.length - n = 0 := by omega
      simp [this]
    have h2 : lastWindow n (obs ++ [k]) = obs ++ [k] := by
      unfold lastWindow
      rw [List.length_append]
      have : obs.length + 1 - n = 0 := by omega
      simp [this]
    have hc : ¬ (n < (obs ++ [k]).length) := by
      simp only [List.length_append, List.length_cons, List.length_nil]
      omega
    rw [h1, h2, if_neg hc]

/-- One keydown of the code detector, run on the capped window of an
observation list, fires exactly when the spec matcher fires on that
list, and its new window is the capped window of the spec matcher's new
observation list. -/
lemma handleKey_spec (T obs : List String) (k : String) :
    (handleKeyDown T (lastWindow T.length obs) k).2 = (specKey T obs k).2
    ∧ (handleKeyDown T (lastWindow T.length obs) k).1
        = lastWindow T.length ((specKey T obs k).1) := by
  have hw := window_step T.length obs k
  unfold handleKeyDown specKey
  simp only []
  by_cases hm : lastWindow T.length (obs ++ [k]) = T
  · rw [hw, if_pos hm, if_pos hm]
    refine ⟨rfl, ?_⟩
    simp [lastWindow]
  · rw [hw, if_neg hm, if_neg hm]
    exact ⟨rfl, hw.symm ▸ rfl⟩

/-- The detector and the spec matcher produce the same fire flags on
every stream, provided the detector's window is the capped window of
the spec matcher's observations. -/
lemma runs_fires_eq (T : List String) :
    ∀ (ks obs : List String),
      (runDetector T (lastWindow T.length obs) ks).2 = (runSpecMatcher T obs ks).2 := by
  intro ks
  induction ks with
  | nil => intro obs; rfl
  | cons k ks ih =>
    intro obs
    have hs := handleKey_spec T obs k
    simp only [runDetector, runSpecMatcher]
    rw [hs.1, hs.2, ih ((specKey T obs k).1)]


/-- A tick on an inactive state is a no-op (updateGame returns at the
gameActive() guard). -/
lemma updateGameRun_inactive (s : GameState) (g : Geometry)
    (nows : Nat → Nat) (rands : Nat → ℚ) (hact : s.active = false) :
    (updateGameRun s g nows rands).1 = s := by
  simp [updateGameRun, hact]

/-- Componentwise description of the post-tick state while active:
gravity on playerY, the obstacle update on obstacles and score, and
active untouched (collision detection has no synchronous effect). -/
lemma updateGameRun_active (s : GameState) (g : Geometry)
    (nows : Nat → Nat) (rands : Nat → ℚ) (hact : s.active = true) :
    (updateGameRun s g nows rands).1.playerY = min 90 (s.playerY + 1/2)
    ∧ (updateGameRun s g nows rands).1.obstacles
        = (updateObstacles s.obstacles s.score nows rands).1
    ∧ (updateGameRun s g nows rands).1.score
        = (updateObstacles s.obstacles s.score nows rands).2
    ∧ (updateGameRun s g nows rands).1.active = true := by
  refine ⟨?_, ?_, ?_, ?_⟩ <;> simp [updateGameRun, hact, detect_foldl_id]

/-- Every event step keeps playerY inside [0, 90]. -/
lemma stepEvent_playerY_range (s : GameState) (e : GEvent)
    (h0 : 0 ≤ s.playerY) (h90 : s.playerY ≤ 90) :
    0 ≤ (stepEvent s e).playerY ∧ (stepEvent s e).playerY ≤ 90 := by
  cases e with
  | tick nows rands g =>
    rcases hact : s.active with _ | _
    · rw [stepEvent, updateGameRun_inactive s g nows rands hact]
      exact ⟨h0, h90⟩
    · rw [stepEvent, (updateGameRun_active s g nows rands hact).1]
      constructor
      · apply le_min (by norm_num) (by linarith)
      · exact min_le_left _ _
  | key k =>
    dsimp only [stepEvent, handleControls, closeGame]
    split_ifs <;> simp only []
    · exact ⟨h0, h90⟩
    · constructor
      · exact le_max_left _ _
      · apply max_le (by norm_num) (by linarith)
    · constructor
      · apply le_min (by norm_num) (by linarith)
      · exact min_le_left _ _
    · exact ⟨h0, h90⟩
    · exact ⟨h0, h90⟩
  | crashDone => exact ⟨h0, h90⟩
  | restart m w r1 r2 r3 =>
    dsimp only [stepEvent, restartTimerBody]
    split_ifs
    · norm_num [initGame]
    · exact ⟨h0, h90⟩

/-- playerY stays in [0, 90] along any event run from a state inside
the range. -/
lemma runEvents_playerY_range :
    ∀ (evs : List GEvent) (s : GameState), 0 ≤ s.playerY → s.playerY ≤ 90 →
      0 ≤ (runEvents s evs).playerY ∧ (runEvents s evs).playerY ≤ 90 := by
  intro evs
  induction evs with
  | nil => intro s h0 h90; exact ⟨h0, h90⟩
  | cons e evs ih =>
    intro s h0 h90
    have hs := stepEvent_playerY_range s e h0 h90
    exact ih (stepEvent s e) hs.1 hs.2

/-- A fresh obstacle built from an in-range random draw satisfies the
height invariant. -/
lemma createObstacle_heightOk (x : ℚ) (i n : Nat) (r : ℚ) (hr : goodRand r) :
    heightOkP (createObstacle x i n r) := by
  rcases hr with ⟨ha, hb⟩
  refine ⟨?_, ?_, rfl⟩ <;> simp [createObstacle] <;> nlinarith

/-- The recycling loop preserves the height invariant when the random
stream stays in range. -/
lemma recycleLoop_heightOk (nows : Nat → Nat) (rands : Nat → ℚ)
    (hr : ∀ m, goodRand (rands m)) :
    ∀ (todo done : List Obstacle) (sc k : Nat),
      (∀ o ∈ done, heightOkP o) → (∀ o ∈ todo, heightOkP o) →
      ∀ o ∈ (recycleLoop done todo sc k nows rands).1, heightOkP o := by
  intro todo
  induction todo with
  | nil =>
    intro done sc k hd _ o ho
    exact hd o (by simpa [recycleLoop] using ho)
  | cons ob rest ih =>
    intro done sc k hd ht o ho
    by_cases hb : ob.x < -50
    · rw [recycleLoop, if_pos hb] at ho
      refine ih _ _ _ ?_ (fun o2 ho2 => ht o2 (by simp [ho2])) o ho
      intro o2 ho2
      rcases List.mem_append.1 ho2 with h | h
      · exact hd o2 h
      · rw [List.mem_singleton.1 h]
        exact createObstacle_heightOk _ _ _ _ (hr k)
    · rw [recycleLoop, if_neg hb] at ho
      refine ih _ _ _ ?_ (fun o2 ho2 => ht o2 (by simp [ho2])) o ho
      intro o2 ho2
      rcases List.mem_append.1 ho2 with h | h
      · exact hd o2 h
      · rw [List.mem_singleton.1 h]
        exact ht ob (by simp)

/-- The per-tick obstacle update preserves the height invariant. -/
lemma updateObstacles_heightOk (obs : List Obstacle) (sc : Nat)
    (nows : Nat → Nat) (rands : Nat → ℚ) (hr : ∀ m, goodRand (rands m))
    (hobs : ∀ o ∈ obs, heightOkP o) :
    ∀ o ∈ (updateObstacles obs sc nows rands).1, heightOkP o := by
  unfold updateObstacles
  refine recycleLoop_heightOk nows rands hr _ [] sc 0 (by simp) ?_
  intro o ho
  rcases List.mem_map.1 ho with ⟨o2, ho2, rfl⟩
  exact hobs o2 ho2

/-- Keyboard handling never touches the obstacle list. -/
lemma handleControls_obstacles (s : GameState) (k : String) :
    (handleControls s k).1.obstacles = s.obstacles := by
  unfold handleControls closeGame
  split_ifs <;> rfl

/-- Every event step preserves the height invariant of every live
obstacle, given in-range random draws. -/
lemma stepEvent_heightOk (s : GameState) (e : GEvent) (he : evGood e)
    (hs : ∀ o ∈ s.obstacles, heightOkP o) :
    ∀ o ∈ (stepEvent s e).obstacles, heightOkP o := by
  cases e with
  | tick nows rands g =>
    rcases hact : s.active with _ | _
    · rw [stepEvent, updateGameRun_inactive s g nows rands hact]
      exact hs
    · rw [stepEvent, (updateGameRun_active s g nows rands hact).2.1]
      exact updateObstacles_heightOk _ _ _ _ he hs
  | key k =>
    rw [stepEvent, handleControls_obstacles]
    exact hs
  | crashDone => exact hs
  | restart m w r1 r2 r3 =>
    rcases he with ⟨h1, h2, h3⟩
    dsimp only [stepEvent, restartTimerBody]
    split_ifs
    · intro o ho
      rcases (by simpa [initGame] using ho :
          o = createObstacle (w + 50) 1 0 r1 ∨ o = createObstacle (w + 200) 2 0 r2
            ∨ o = createObstacle (w + 350) 3 0 r3) with h | h | h <;>
        (subst h; exact createObstacle_heightOk _ _ _ _ (by assumption))
    · exact hs

/-- The height invariant holds along any event run from a state whose
obstacles satisfy it. -/
lemma runEvents_heightOk :
    ∀ (evs : List GEvent) (s : GameState), (∀ e ∈ evs, evGood e) →
      (∀ o ∈ s.obstacles, heightOkP o) →
      ∀ o ∈ (runEvents s evs).obstacles, heightOkP o := by
  intro evs
  induction evs with
  | nil => intro s _ hs; exact hs
  | cons e evs ih =>
    intro s hevs hs
    exact ih (stepEvent s e) (fun e2 h2 => hevs e2 (by simp [h2]))
      (stepEvent_heightOk s e (hevs e (by simp)) hs)

/-- The executable obstacle check agrees with the height invariant
(the render's bottom height equals 100 - height - 30 exactly when the
gap size is 30). -/
lemma obstaclesOk_iff (l : List Obstacle) :
    obstaclesOk l = true ↔ ∀ o ∈ l, heightOkP o := by
  unfold obstaclesOk heightOkP bottomObstacleHeight
  simp only [List.all_eq_true, Bool.and_eq_true, decide_eq_true_eq]
  constructor
  · intro h o ho
    rcases h o ho with ⟨⟨⟨a, b⟩, c⟩, _⟩
    exact ⟨a, b, c⟩
  · intro h o ho
    rcases h o ho with ⟨a, b, c⟩
    exact ⟨⟨⟨a, b⟩, c⟩, by rw [c]⟩

/-- A fold of max over obstacle x positions is at least its seed. -/
lemma foldl_max_init_le (l : List Obstacle) :
    ∀ (a : ℚ), a ≤ l.foldl (fun m o2 => max m o2.x) a := by
  induction l with
  | nil => intro a; simp
  | cons o rest ih =>
    intro a
    exact le_trans (le_max_left a o.x) (by simpa using ih (max a o.x))

/-- A fold of max over obstacle x positions dominates every member. -/
lemma foldl_max_mem_le (l : List Obstacle) :
    ∀ (a : ℚ) (o : Obstacle), o ∈ l → o.x ≤ l.foldl (fun m o2 => max m o2.x) a := by
  induction l with
  | nil => intro a o h; simp at h
  | cons o2 rest ih =>
    intro a o h
    rcases List.mem_cons.1 h with h | h
    · subst h
      exact le_trans (le_max_right a o.x) (by simpa using foldl_max_init_le rest (max a o.x))
    · simpa using ih (max a o2.x) o h

/-- Math.max over the x positions bounds every member. -/
lemma maxX_mem_le (l : List Obstacle) (o : Obstacle) (h : o ∈ l) : o.x ≤ maxX l := by
  cases l with
  | nil => simp at h
  | cons o2 rest =>
    rcases List.mem_cons.1 h with h | h
    · subst h
      exact foldl_max_init_le rest o.x
    · exact foldl_max_mem_le rest o2.x o h

/-- The fold of max is attained at the seed or at a member. -/
lemma foldl_max_attained (l : List Obstacle) :
    ∀ (a : ℚ), l.foldl (fun m o2 => max m o2.x) a = a
      ∨ ∃ o ∈ l, l.foldl (fun m o2 => max m o2.x) a = o.x := by
  induction l with
  | nil => intro a; left; rfl
  | cons o rest ih =>
    intro a
    rcases ih (max a o.x) with h | ⟨o2, ho2, h⟩
    · rcases max_choice a o.x with hm | hm
      · left
        simpa [hm] using h
      · right
        exact ⟨o, by simp, by simpa [hm] using h⟩
    · right
      exact ⟨o2, by simp [ho2], by simpa using h⟩

/-- maxX equals the x of any member that dominates all members. -/
lemma maxX_eq_of (l : List Obstacle) (o : Obstacle) (hmem : o ∈ l)
    (hub : ∀ z ∈ l, z.x ≤ o.x) : maxX l = o.x := by
  refine le_antisymm ?_ (maxX_mem_le l o hmem)
  cases l with
  | nil => simp at hmem
  | cons o2 rest =>
    rcases foldl_max_attained rest o2.x with h | ⟨z, hz, h⟩
    · rw [maxX, h]
      exact hub o2 (by simp)
    · rw [maxX, h]
      exact hub z (by simp [hz])

/-- Replacing the head of the tail segment by an obstacle 300 to the
right of the current rightmost makes that obstacle the new rightmost. -/
lemma maxX_swap_big (done rest : List Obstacle) (o z : Obstacle)
    (hz : z.x = maxX (done ++ o :: rest) + 300) :
    maxX (done ++ z :: rest) = z.x := by
  refine maxX_eq_of _ z (by simp) ?_
  intro w hw
  rcases List.mem_append.1 hw with h | h
  · have : w.x ≤ maxX (done ++ o :: rest) :=
      maxX_mem_le _ w (List.mem_append.2 (Or.inl h))
    linarith [this, hz.ge]
  · rcases List.mem_cons.1 h with h | h
    · subst h; rfl
    · have : w.x ≤ maxX (done ++ o :: rest) :=
        maxX_mem_le _ w (List.mem_append.2 (Or.inr (List.mem_cons.2 (Or.inr h))))
      linarith [this, hz.ge]

/-- Full description of one pass of the recycling loop: the result
extends the processed segment by a block of the todo segment's length;
the score grows by the number of entries below the threshold;
below-threshold entries are replaced by obstacles placed at least 300
past the rightmost at their turn (hence above every original), later
recycles land strictly further right, the first recycle lands exactly
at rightmost + 300 with the stream values at the current counter, and
entries at or above the threshold are kept unchanged. -/
lemma recycleLoop_master (nows : Nat → Nat) (rands : Nat → ℚ) :
    ∀ (todo done : List Obstacle) (sc k : Nat),
      ∃ t2 : List Obstacle,
        (recycleLoop done todo sc k nows rands).1 = done ++ t2
        ∧ t2.length = todo.length
        ∧ (recycleLoop done todo sc k nows rands).2.1
            = sc + todo.countP (fun o => decide (o.x < -50))
        ∧ (∀ i, i < todo.length → ¬ ((todo.getD i default).x < -50) →
            t2.getD i default = todo.getD i default)
        ∧ (∀ i, i < todo.length → (todo.getD i default).x < -50 →
            maxX (done ++ todo) + 300 ≤ (t2.getD i default).x)
        ∧ (∀ i j, i < j → j < todo.length → (todo.getD i default).x < -50 →
            (todo.getD j default).x < -50 →
            (t2.getD i default).x < (t2.getD j default).x)
        ∧ (∀ i, i < todo.length → (todo.getD i default).x < -50 →
            (todo.take i).countP (fun o => decide (o.x < -50)) = 0 →
            t2.getD i default
              = createObstacle (maxX (done ++ todo) + 300) (nows k) (nows k) (rands k)) := by
  intro todo
  induction todo with
  | nil =>
    intro done sc k
    refine ⟨[], by simp [recycleLoop], rfl, by simp [recycleLoop], ?_, ?_, ?_, ?_⟩
    · intro i hi; simp at hi
    · intro i hi; simp at hi
    · intro i j hij hjlen; simp at hjlen
    · intro i hi; simp at hi
  | cons ob rest ih =>
    intro done sc k
    by_cases hb : ob.x < -50
    · set M := maxX (done ++ ob :: rest) with hM
      set o2 := createObstacle (M + 300) (nows k) (nows k) (rands k) with ho2
      have ho2x : o2.x = M + 300 := rfl
      have hrl : recycleLoop done (ob :: rest) sc k nows rands
          = recycleLoop (done ++ [o2]) rest (sc + 1) (k + 1) nows rands := by
        rw [recycleLoop, if_pos hb]
      rcases ih (done ++ [o2]) (sc + 1) (k + 1) with
        ⟨r2, hre, hrlen, hrsc, hrkeep, hrbig, hrord, hrfirst⟩
      have hMstep : maxX ((done ++ [o2]) ++ rest) = M + 300 := by
        have : (done ++ [o2]) ++ rest = done ++ o2 :: rest := by simp
        rw [this]
        rw [maxX_swap_big done rest ob o2 ho2x, ho2x]
      refine ⟨o2 :: r2, ?_, ?_, ?_, ?_, ?_, ?_, ?_⟩
      · rw [hrl, hre]
        simp
      · simpa using hrlen
      · have hc1 : (if decide (ob.x < -50) = true then 1 else 0) = 1 := by simp [hb]
        rw [hrl, hrsc, List.countP_cons, hc1]
        omega
      · intro i hlen hnb
        cases i with
        | zero =>
          rw [List.getD_cons_zero] at hnb
          exact absurd hb hnb
        | succ i2 =>
          simp only [List.getD_cons_succ] at hnb ⊢
          exact hrkeep i2 (by simpa using hlen) hnb
      · intro i hlen hbad
        cases i with
        | zero =>
          simp only [List.getD_cons_zero, ho2x]
          exact le_rfl
        | succ i2 =>
          simp only [List.getD_cons_succ] at hbad ⊢
          have := hrbig i2 (by simpa using hlen) hbad
          rw [hMstep] at this
          linarith
      · intro i j hij hjlen hbi hbj
        cases i with
        | zero =>
          cases j with
          | zero => omega
          | succ j2 =>
            simp only [List.getD_cons_zero, List.getD_cons_succ, ho2x] at hbj ⊢
            have := hrbig j2 (by simpa using hjlen) hbj
            rw [hMstep] at this
            linarith
        | succ i2 =>
          cases j with
          | zero => omega
          | succ j2 =>
            simp only [List.getD_cons_succ] at hbi hbj ⊢
            exact hrord i2 j2 (by omega) (by simpa using hjlen) hbi hbj
      · intro i hlen hbad hnone
        cases i with
        | zero =>
          simp only [List.getD_cons_zero]
        | succ i2 =>
          exfalso
          rw [List.take_succ_cons, List.countP_cons] at hnone
          have hc1 : (if decide (ob.x < -50) = true then 1 else 0) = 1 := by simp [hb]
          rw [hc1] at hnone
          omega
    · have hrl : recycleLoop done (ob :: rest) sc k nows rands
          = recycleLoop (done ++ [ob]) rest sc k nows rands := by
        rw [recycleLoop, if_neg hb]
      rcases ih (done ++ [ob]) sc k with
        ⟨r2, hre, hrlen, hrsc, hrkeep, hrbig, hrord, hrfirst⟩
      have hMstep : maxX ((done ++ [ob]) ++ rest) = maxX (done ++ ob :: rest) := by
        have : (done ++ [ob]) ++ rest = done ++ ob :: rest := by simp
        rw [this]
      refine ⟨ob :: r2, ?_, ?_, ?_, ?_, ?_, ?_, ?_⟩
      · rw [hrl, hre]
        simp
      · simpa using hrlen
      · have hc0 : (if decide (ob.x < -50) = true then 1 else 0) = 0 := by simp [hb]
        rw [hrl, hrsc, List.countP_cons, hc0]
        omega
      · intro i hlen hnb
        cases i with
        | zero => simp
        | succ i2 =>
          simp only [List.getD_cons_succ] at hnb ⊢
          exact hrkeep i2 (by simpa using hlen) hnb
      · intro i hlen hbad
        cases i with
        | zero => simp at hbad; exact absurd hbad hb
        | succ i2 =>
          simp only [List.getD_cons_succ] at hbad ⊢
          have := hrbig i2 (by simpa using hlen) hbad
          rw [hMstep] at this
          linarith
      · intro i j hij hjlen hbi hbj
        cases i with
        | zero =>
          simp only [List.getD_cons_zero] at hbi
          exact absurd hbi hb
        | succ i2 =>
          cases j with
          | zero => omega
          | succ j2 =>
            simp only [List.getD_cons_succ] at hbi hbj ⊢
            exact hrord i2 j2 (by omega) (by simpa using hjlen) hbi hbj
      · intro i hlen hbad hnone
        cases i with
        | zero =>
          simp only [List.getD_cons_zero] at hbad
          exact absurd hbad hb
        | succ i2 =>
          simp only [List.getD_cons_succ] at hbad ⊢
          rw [List.take_succ_cons, List.countP_cons] at hnone
          have hc0 : (if decide (ob.x < -50) = true then 1 else 0) = 0 := by simp [hb]
          rw [hc0] at hnone
          have := hrfirst i2 (by simpa using hlen) hbad (by omega)
          rw [hMstep] at this
          exact this

/-- Indexing the shifted obstacle list. -/
lemma getD_map_shift (l : List Obstacle) (i : Nat) (h : i < l.length) :
    (l.map (fun o => { o with x := o.x - 2 })).getD i default
      = { l.getD i default with x := (l.getD i default).x - 2 } := by
  rw [List.getD_eq_getElem _ _ (by simpa using h), List.getD_eq_getElem _ _ h,
    List.getElem_map]

/-- Counting below-threshold entries after the shift. -/
lemma countP_shift (l : List Obstacle) :
    (l.map (fun o => { o with x := o.x - 2 })).countP (fun o => decide (o.x < -50))
      = l.countP (fun o => decide (o.x - 2 < -50)) := by
  rw [List.countP_map]
  rfl

/-- Counting below-threshold entries after the shift, on a front
segment. -/
lemma take_countP_shift (l : List Obstacle) (i : Nat) :
    ((l.map (fun o => { o with x := o.x - 2 })).take i).countP (fun o => decide (o.x < -50))
      = (l.take i).countP (fun o => decide (o.x - 2 < -50)) := by
  rw [← List.map_take, List.countP_map]
  rfl

/-! ## Claim theorems -/

/-- C10: running detectCollisions never synchronously mutates the game
state: applying its whole synchronous operation trace to any state, for
any DOM geometry, returns the state unchanged (playerY, obstacles,
score and active all keep their values); crash effects live only in
deferred animation callbacks. -/
theorem detectCollisions_no_sync_mutation (s : GameState) (g : Geometry) :
    (detectCollisionsOps s g).foldl applySyncOp s = s :=
  detect_foldl_id s g

/-- C2: with the two barrier rects of an obstacle sharing their
horizontal extent (as rendered), the collision test reports a collision
iff that extent overlaps the player's horizontal extent and the
player's vertical extent is not fully contained in the gap between the
top barrier's bottom edge and the bottom barrier's top edge; obstacles
with no horizontal overlap never collide, and a player strictly inside
the gap while overlapping never collides. -/
theorem collision_iff_outside_gap (p t b : Rect)
    (hl : t.left = b.left) (hr : t.right = b.right) :
    (checkCollision p t b = true ↔
      ((t.left < p.right ∧ p.left < t.right) ∧ ¬(t.bottom ≤ p.top ∧ p.bottom ≤ b.top)))
    ∧ (¬(t.left < p.right ∧ p.left < t.right) → checkCollision p t b = false)
    ∧ ((t.left < p.right ∧ p.left < t.right) → t.bottom < p.top → p.bottom < b.top →
        checkCollision p t b = false) := by
  by_cases h1 : t.left < p.right <;> by_cases h2 : p.left < t.right <;>
    by_cases h3 : p.top < t.bottom <;> by_cases h4 : b.top < p.bottom <;>
    refine ⟨?_, ?_, ?_⟩ <;>
    simp [checkCollision, ← hl, ← hr, h1, h2, h3, h4, not_and_or, not_le] <;>
    first
      | tauto
      | (intros; linarith)

/-- Witness for C2 at concrete rects: the player overlaps the obstacle
horizontally and sticks into the top barrier, so a collision is
reported. -/
theorem collision_iff_outside_gap_witness :
    (checkCollision ⟨10, 20, 10, 50⟩ ⟨0, 48, 0, 30⟩ ⟨0, 48, 60, 100⟩ = true ↔
      (((0:ℚ) < 20 ∧ (10:ℚ) < 48) ∧ ¬((30:ℚ) ≤ 10 ∧ (50:ℚ) ≤ 60)))
    ∧ (¬((0:ℚ) < 20 ∧ (10:ℚ) < 48) →
        checkCollision ⟨10, 20, 10, 50⟩ ⟨0, 48, 0, 30⟩ ⟨0, 48, 60, 100⟩ = false)
    ∧ (((0:ℚ) < 20 ∧ (10:ℚ) < 48) → (30:ℚ) < 10 → (50:ℚ) < 60 →
        checkCollision ⟨10, 20, 10, 50⟩ ⟨0, 48, 0, 30⟩ ⟨0, 48, 60, 100⟩ = false) :=
  collision_iff_outside_gap ⟨10, 20, 10, 50⟩ ⟨0, 48, 0, 30⟩ ⟨0, 48, 60, 100⟩ rfl rfl

/-- C4 counterexample: in an inactive (crashed) state an Escape keydown
does not invoke the close path at all, because handleControls returns
before reaching the Escape branch; this refutes the claim that Escape
closes the game regardless of active. -/
theorem escape_ignored_when_inactive :
    sCrash.active = false ∧ (handleControls sCrash "Escape").2 = false :=
  ⟨rfl, rfl⟩

/-- C4 amended: an Escape keydown schedules the close callback (after
the exit animation) iff the game is active; when it fires, it
deactivates the game, and an inactive state is left untouched. -/
theorem escape_closes_iff_active (s : GameState) :
    ((handleControls s "Escape").2 = true ↔ s.active = true)
    ∧ (handleControls s "Escape").1 =
        (if s.active = true then { s with active := false } else s) := by
  rcases hs : s.active with _ | _ <;>
    simp [handleControls, closeGame, hs]

/-- C9: a concrete interleaving of the code's own scheduled
continuations in which a game tick body executes after teardown has
begun and even after unmount: the crash animation completes (arming the
restart timer), the user closes the game, the restart timer fires and
its gameRef mounted guard passes, reactivating the loop, the exit
animation completes (unmount), and the queued frame then runs its body
because gameActive() is true again. -/
theorem tick_after_teardown_trace :
    (tdRun tdStart [TdEvent.crashAnimDone, TdEvent.clickClose, TdEvent.restartTimerFire,
        TdEvent.closeAnimDone, TdEvent.rafFire]).ticksAfterTeardown = 1
    ∧ (tdRun tdStart [TdEvent.crashAnimDone, TdEvent.clickClose, TdEvent.restartTimerFire,
        TdEvent.closeAnimDone, TdEvent.rafFire]).mounted = false
    ∧ (tdRun tdStart [TdEvent.crashAnimDone, TdEvent.clickClose, TdEvent.restartTimerFire,
        TdEvent.closeAnimDone, TdEvent.rafFire]).active = true := by
  refine ⟨rfl, rfl, rfl⟩

/-- C8: when the first two obstacles cross the recycle threshold in the
same tick and Date.now() returns the same millisecond for both calls,
both recycled obstacles receive that same id, so the live set's ids are
no longer pairwise distinct. -/
theorem recycle_duplicate_ids :
    ((updateGameRun s8 g0 (fun _ => 987654) (fun _ => 1/2)).1.obstacles.map Obstacle.id)
      = [987654, 987654, 3]
    ∧ ¬ ((updateGameRun s8 g0 (fun _ => 987654)
        (fun _ => 1/2)).1.obstacles.map Obstacle.id).Nodup := by
  have h : ((updateGameRun s8 g0 (fun _ => 987654)
      (fun _ => 1/2)).1.obstacles.map Obstacle.id) = [987654, 987654, 3] := by
    simp [updateGameRun, s8, g0, updateObstacles, recycleLoop, createObstacle, maxX,
      detectCollisionsOps, applySyncOp]
    norm_num [recycleLoop, createObstacle, maxX, max_def]
  exact ⟨h, by rw [h]; decide⟩

/-- C3 counterexample: a tick on which collision detection finds a
collision (one crash animation is scheduled) yet the game does not
transition to Crashed in that tick: active is still true afterwards and
the next frame is scheduled. -/
theorem collision_tick_keeps_active :
    (updateGameRun sRun gHit (fun _ => 0) (fun _ => 0)).2.2 = 1
    ∧ (updateGameRun sRun gHit (fun _ => 0) (fun _ => 0)).1.active = true
    ∧ (updateGameRun sRun gHit (fun _ => 0) (fun _ => 0)).2.1 = true := by
  refine ⟨?_, ?_, ?_⟩ <;>
    norm_num [updateGameRun, sRun, gHit, updateObstacles, recycleLoop, createObstacle,
      maxX, detectCollisionsOps, detectLoop, checkCollision, handleCollisionOps, applySyncOp]

/-- C1: for every target pattern and every finite key stream fed to a
started detector, the callback fires exactly when the last
pattern-length keys observed since start or since the previous
invocation equal the pattern in order (the spec-side matcher
runSpecMatcher transcribes that rule), and on each match the window is
cleared before the callback runs, so occurrences never overlap. -/
theorem matcher_fires_iff_last_window (T ks : List String) :
    (runDetector T [] ks).2 = (runSpecMatcher T [] ks).2
    ∧ ∀ (seq : List String) (k : String),
        (handleKeyDown T seq k).2 = true → (handleKeyDown T seq k).1 = [] := by
  constructor
  · have h := runs_fires_eq T ks []
    simpa [lastWindow] using h
  · intro seq k
    dsimp only [handleKeyDown]
    by_cases hm : (if T.length < (seq ++ [k]).length then (seq ++ [k]).tail
        else seq ++ [k]) = T
    · rw [if_pos hm]
      intro _
      rfl
    · rw [if_neg hm]
      intro h
      simp at h

/-- C3 amended: on a tick where collision detection finds a collision
(at least one crash animation scheduled), the game does not transition
to Crashed within that tick: active remains true and the next frame is
still scheduled; active becomes false only when the crash animation
completes, which also schedules the restart timer. -/
theorem collision_tick_defers_crash (s : GameState) (g : Geometry)
    (nows : Nat → Nat) (rands : Nat → ℚ)
    (hact : s.active = true) (_hcol : 1 ≤ (updateGameRun s g nows rands).2.2) :
    (updateGameRun s g nows rands).1.active = true
    ∧ (updateGameRun s g nows rands).2.1 = true
    ∧ (crashAnimOnComplete (updateGameRun s g nows rands).1).1.active = false
    ∧ (crashAnimOnComplete (updateGameRun s g nows rands).1).2 = true := by
  refine ⟨?_, ?_, rfl, rfl⟩ <;>
    simp [updateGameRun, hact, detect_foldl_id, crashAnimOnComplete]

/-- Witness for the amended C3 at a concrete colliding tick. -/
theorem collision_tick_defers_crash_witness :
    sRun.active = true
    ∧ 1 ≤ (updateGameRun sRun gHit (fun _ => 1) (fun _ => 1/2)).2.2
    ∧ ((updateGameRun sRun gHit (fun _ => 1) (fun _ => 1/2)).1.active = true
      ∧ (updateGameRun sRun gHit (fun _ => 1) (fun _ => 1/2)).2.1 = true
      ∧ (crashAnimOnComplete
          (updateGameRun sRun gHit (fun _ => 1) (fun _ => 1/2)).1).1.active = false
      ∧ (crashAnimOnComplete
          (updateGameRun sRun gHit (fun _ => 1) (fun _ => 1/2)).1).2 = true) := by
  have hcol : 1 ≤ (updateGameRun sRun gHit (fun _ => 1) (fun _ => 1/2)).2.2 := by
    norm_num [updateGameRun, sRun, gHit, updateObstacles, recycleLoop, createObstacle,
      maxX, detectCollisionsOps, detectLoop, checkCollision, handleCollisionOps, applySyncOp]
  exact ⟨rfl, hcol, collision_tick_defers_crash sRun gHit (fun _ => 1) (fun _ => 1/2) rfl hcol⟩

/-- C5: starting from initGame (playerY = 50), playerY remains in
[0,90] across every sequence of ticks, keyboard inputs, crash
completions and restarts: at most 90 after each gravity step and inside
[0,90] after every up/space or down input. -/
theorem player_stays_in_bounds (w r1 r2 r3 : ℚ) (evs : List GEvent) :
    0 ≤ (runEvents (initGame w r1 r2 r3) evs).playerY
    ∧ (runEvents (initGame w r1 r2 r3) evs).playerY ≤ 90 := by
  apply runEvents_playerY_range <;> norm_num [initGame]

/-- C6: at every reachable state, every live obstacle has gapTopHeight
in [20,70] and gapSize 30, and the rendered bottom barrier height is
100 - gapTopHeight - 30 — for the 3 obstacles seeded at run start and
every recycled obstacle, whenever all Math.random() draws lie in
[0,1). -/
theorem obstacles_within_invariant (w r1 r2 r3 : ℚ) (evs : List GEvent)
    (h1 : goodRand r1) (h2 : goodRand r2) (h3 : goodRand r3)
    (hevs : ∀ e ∈ evs, evGood e) :
    obstaclesOk (runEvents (initGame w r1 r2 r3) evs).obstacles = true := by
  rw [obstaclesOk_iff]
  refine runEvents_heightOk evs _ hevs ?_
  intro o ho
  rcases (by simpa [initGame] using ho :
      o = createObstacle (w + 50) 1 0 r1 ∨ o = createObstacle (w + 200) 2 0 r2
        ∨ o = createObstacle (w + 350) 3 0 r3) with h | h | h <;>
    (subst h; exact createObstacle_heightOk _ _ _ _ (by assumption))

/-- Witness for C6: a run with one tick from concrete parameters. -/
theorem obstacles_within_invariant_witness :
    obstaclesOk (runEvents (initGame 100 (1/2) (1/2) (1/2))
      [GEvent.tick (fun _ => 7) (fun _ => 1/2) g0]).obstacles = true := by
  refine obstacles_within_invariant 100 (1/2) (1/2) (1/2) _
    (by norm_num [goodRand]) (by norm_num [goodRand]) (by norm_num [goodRand]) ?_
  intro e he
  rw [List.mem_singleton.1 he]
  intro m
  norm_num [goodRand]

/-- C7: on a tick from an active state, for all indices i, j of the
live list: the obstacle count is preserved; the score grows by exactly
the number of obstacles whose shifted x dropped below -50; an
un-recycled obstacle is exactly its shift by -2; every recycled
obstacle ends strictly to the right of every un-recycled one; recycled
obstacles are ordered left-to-right by recycle order; and the first
recycled obstacle is placed exactly at max(existing shifted x) + 300
with the fresh Date.now() id and random height. -/
theorem recycle_spec (s : GameState) (g : Geometry) (nows : Nat → Nat) (rands : Nat → ℚ)
    (hact : s.active = true) (i j : Nat)
    (hi : i < s.obstacles.length) (hj : j < s.obstacles.length) :
    (updateGameRun s g nows rands).1.obstacles.length = s.obstacles.length
    ∧ (updateGameRun s g nows rands).1.score
        = s.score + s.obstacles.countP (fun o => decide (o.x - 2 < -50))
    ∧ (¬ ((s.obstacles.getD i default).x - 2 < -50) →
        (updateGameRun s g nows rands).1.obstacles.getD i default
          = { s.obstacles.getD i default with x := (s.obstacles.getD i default).x - 2 })
    ∧ (((s.obstacles.getD i default).x - 2 < -50) →
        ¬ ((s.obstacles.getD j default).x - 2 < -50) →
        ((updateGameRun s g nows rands).1.obstacles.getD j default).x
          < ((updateGameRun s g nows rands).1.obstacles.getD i default).x)
    ∧ (i < j → ((s.obstacles.getD i default).x - 2 < -50) →
        ((s.obstacles.getD j default).x - 2 < -50) →
        ((updateGameRun s g nows rands).1.obstacles.getD i default).x
          < ((updateGameRun s g nows rands).1.obstacles.getD j default).x)
    ∧ (((s.obstacles.getD i default).x - 2 < -50) →
        (s.obstacles.take i).countP (fun o => decide (o.x - 2 < -50)) = 0 →
        (updateGameRun s g nows rands).1.obstacles.getD i default
          = createObstacle
              (maxX (s.obstacles.map (fun o => { o with x := o.x - 2 })) + 300)
              (nows 0) (nows 0) (rands 0)) := by
  have hobs := (updateGameRun_active s g nows rands hact).2.1
  have hsc := (updateGameRun_active s g nows rands hact).2.2.1
  rcases recycleLoop_master nows rands
      (s.obstacles.map (fun o => { o with x := o.x - 2 })) [] s.score 0 with
    ⟨t2, he, hlen, hscm, hkeep, hbig, hord, hfirst⟩
  rw [List.nil_append] at he hbig hfirst
  have hu1 : (updateObstacles s.obstacles s.score nows rands).1 = t2 := he
  have hu2 : (updateObstacles s.obstacles s.score nows rands).2
      = s.score + s.obstacles.countP (fun o => decide (o.x - 2 < -50)) := by
    rw [show (updateObstacles s.obstacles s.score nows rands).2
        = (recycleLoop [] (s.obstacles.map (fun o => { o with x := o.x - 2 }))
            s.score 0 nows rands).2.1 from rfl, hscm, countP_shift]
  have htlen : (s.obstacles.map (fun o => { o with x := o.x - 2 })).length
      = s.obstacles.length := List.length_map _ _
  have hti : i < (s.obstacles.map (fun o => { o with x := o.x - 2 })).length := by
    rw [htlen]; exact hi
  have htj : j < (s.obstacles.map (fun o => { o with x := o.x - 2 })).length := by
    rw [htlen]; exact hj
  have hgi := getD_map_shift s.obstacles i hi
  have hgj := getD_map_shift s.obstacles j hj
  refine ⟨?_, ?_, ?_, ?_, ?_, ?_⟩
  · rw [hobs, hu1, hlen, htlen]
  · rw [hsc, hu2]
  · intro hnb
    rw [hobs, hu1]
    rw [hkeep i hti (by rw [hgi]; simpa using hnb), hgi]
  · intro hbi hnbj
    rw [hobs, hu1]
    have h1 := hbig i hti (by rw [hgi]; simpa using hbi)
    have h2 := hkeep j htj (by rw [hgj]; simpa using hnbj)
    have hmem : (s.obstacles.map (fun o => { o with x := o.x - 2 })).getD j default
        ∈ s.obstacles.map (fun o => { o with x := o.x - 2 }) := by
      rw [List.getD_eq_getElem _ _ htj]
      exact List.getElem_mem htj
    have h3 := maxX_mem_le _ _ hmem
    rw [h2]
    linarith
  · intro hij hbi hbj
    rw [hobs, hu1]
    exact hord i j hij htj (by rw [hgi]; simpa using hbi) (by rw [hgj]; simpa using hbj)
  · intro hbi hnone
    rw [hobs, hu1]
    exact hfirst i hti (by rw [hgi]; simpa using hbi)
      (by rw [take_countP_shift]; exact hnone)

/-- Witness for C7 at a concrete tick where exactly the first obstacle
is recycled. -/
theorem recycle_spec_witness :
    (0 : Nat) < s7.obstacles.length
    ∧ (1 : Nat) < s7.obstacles.length
    ∧ ((updateGameRun s7 g0 (fun _ => 424242) (fun _ => 1/2)).1.obstacles.length
          = s7.obstacles.length
      ∧ (updateGameRun s7 g0 (fun _ => 424242) (fun _ => 1/2)).1.score
          = s7.score + s7.obstacles.countP (fun o => decide (o.x - 2 < -50))
      ∧ (¬ ((s7.obstacles.getD 0 default).x - 2 < -50) →
          (updateGameRun s7 g0 (fun _ => 424242) (fun _ => 1/2)).1.obstacles.getD 0 default
            = { s7.obstacles.getD 0 default with x := (s7.obstacles.getD 0 default).x - 2 })
      ∧ (((s7.obstacles.getD 0 default).x - 2 < -50) →
          ¬ ((s7.obstacles.getD 1 default).x - 2 < -50) →
          ((updateGameRun s7 g0 (fun _ => 424242) (fun _ => 1/2)).1.obstacles.getD 1 default).x
            < ((updateGameRun s7 g0 (fun _ => 424242) (fun _ => 1/2)).1.obstacles.getD 0 default).x)
      ∧ ((0 : Nat) < 1 → ((s7.obstacles.getD 0 default).x - 2 < -50) →
          ((s7.obstacles.getD 1 default).x - 2 < -50) →
          ((updateGameRun s7 g0 (fun _ => 424242) (fun _ => 1/2)).1.obstacles.getD 0 default).x
            < ((updateGameRun s7 g0 (fun _ => 424242) (fun _ => 1/2)).1.obstacles.getD 1 default).x)
      ∧ (((s7.obstacles.getD 0 default).x - 2 < -50) →
          (s7.obstacles.take 0).countP (fun o => decide (o.x - 2 < -50)) = 0 →
          (updateGameRun s7 g0 (fun _ => 424242) (fun _ => 1/2)).1.obstacles.getD 0 default
            = createObstacle
                (maxX (s7.obstacles.map (fun o => { o with x := o.x - 2 })) + 300)
                424242 424242 (1/2))) :=
  ⟨by norm_num [s7], by norm_num [s7],
    recycle_spec s7 g0 (fun _ => 424242) (fun _ => 1/2) rfl 0 1
      (by norm_num [s7]) (by norm_num [s7])⟩
